import Mathlib

/-!
Verification development for the Bharat Regional Language Fact News Detection
System repository.  The two source files are embedded shallowly:

* `src/main/lang_indicators.py` — the `SmartLanguageDetector` class: a
  Devanagari-script check, a weighted-keyword scorer over a fixed indicator
  table, and a hybrid `detect_language` that falls back to the external
  `langdetect` library (modelled as an oracle function parameter).
* `src/final.py` — the chunk/batch/analyze pipeline: document construction
  from post records, greedy batch assembly under a character budget, and the
  orchestrator.  Filesystem reads are modelled as lists of read results
  (`Option`/`Except` values); external collaborators (the langchain text
  splitter, the local model) are oracle parameters.

Python semantics embedded here: `needle in haystack` is substring occurrence
(`occursIn`); `s.split(sep, 1)[1]` is the text after the first occurrence of
`sep` (`afterFirst`); `s.split('/')[0]` is the text before the first `'/'`
(`takeUntilSlash`); `s.strip()` trims whitespace from both ends (`pyStrip`);
`max(d.items(), key=value)` keeps the first item of maximal value
(`bestByScore`).  Python `len` on a `str` counts code points, matching
`String.length` on `List Char` data.
-/

namespace BharatFact

/-- Boolean prefix test on character lists: does `w` begin `t`? -/
def isPrefixB : List Char → List Char → Bool
  | [], _ => true
  | _ :: _, [] => false
  | a :: as, b :: bs => a == b && isPrefixB as bs

/-- Python `w in t` on strings, over the character lists: substring occurrence. -/
def occursIn (w : List Char) : List Char → Bool
  | [] => isPrefixB w []
  | c :: cs => isPrefixB w (c :: cs) || occursIn w cs

/-- Python `t.split(sep, 1)[1]` for nonempty `sep`: the characters after the
first (leftmost) occurrence of `sep`, or `none` when `sep` does not occur. -/
def afterFirst (sep : List Char) : List Char → Option (List Char)
  | [] => none
  | c :: cs =>
    if isPrefixB sep (c :: cs) then some ((c :: cs).drop sep.length)
    else afterFirst sep cs

/-- Python `t.split('/')[0]`: the characters before the first `'/'`. -/
def takeUntilSlash : List Char → List Char
  | [] => []
  | c :: cs => if c == '/' then [] else c :: takeUntilSlash cs

/-- Python `s.strip()`: drop whitespace from both ends.  (Python strips the
full Unicode whitespace set; `Char.isWhitespace` covers the ASCII subset,
which is all the claims exercise.) -/
def pyStrip (s : String) : String :=
  ⟨((s.data.dropWhile Char.isWhitespace).reverse.dropWhile Char.isWhitespace).reverse⟩

/-! ## Embedding of src/main/lang_indicators.py -/

/-- The `devanagari_indicators` table (lang_indicators.py lines 21–44), in the
source's insertion order, which Python dict iteration preserves. -/
def devanagari_indicators : List (String × List (String × Nat)) :=
  [ ("hi", [("है", 3), ("हैं", 3), ("हो", 2), ("क्या", 2), ("यह", 2), ("वह", 2),
            ("मैं", 2), ("तुम", 2), ("को", 1), ("से", 1), ("ने", 1), ("पर", 1),
            ("में", 1), ("का", 1), ("की", 1), ("के", 1)]),
    ("mr", [("आहे", 3), ("आहोत", 3), ("काय", 2), ("हा", 2), ("ती", 2), ("मी", 2),
            ("तू", 2), ("आम्ही", 2), ("तुम्ही", 2), ("ला", 1), ("ने", 1), ("च", 1),
            ("पण", 1), ("आणि", 1)]),
    ("gu", [("છે", 3), ("થાય", 3), ("શું", 2), ("આ", 2), ("તે", 2), ("હું", 2),
            ("તમે", 2), ("ને", 1), ("થી", 1), ("અને", 1), ("પણ", 1)]),
    ("sa", [("अस्ति", 3), ("भवति", 3), ("किम्", 2), ("अहम्", 2), ("त्वम्", 2),
            ("सः", 2), ("तत्", 2), ("च", 1), ("वा", 1)]),
    ("ne", [("छ", 3), ("हो", 2), ("के", 2), ("यो", 2), ("त्यो", 2), ("म", 2),
            ("तिमी", 2), ("हामी", 2), ("लाई", 1), ("बाट", 1), ("र", 1)]) ]

/-- The `lang_code_map` (lang_indicators.py lines 47–52). -/
def lang_code_map : List (String × String) :=
  [ ("hi", "hin_Deva"), ("mr", "mar_Deva"), ("bn", "ben_Beng"), ("ta", "tam_Taml"),
    ("te", "tel_Telu"), ("gu", "guj_Gujr"), ("kn", "kan_Knda"), ("ml", "mal_Mlym"),
    ("pa", "pan_Guru"), ("or", "ory_Orya"), ("as", "asm_Beng"), ("ur", "urd_Arab"),
    ("en", "eng_Latn"), ("ne", "nep_Deva"), ("si", "sin_Sinh"), ("sa", "san_Deva") ]

/-- Dictionary lookup `lang_code_map[k]`; `none` models a Python `KeyError`. -/
def lookupCode (k : String) : Option String :=
  (lang_code_map.find? (fun p => p.1 == k)).map Prod.snd

/-- `is_devanagari_script` (lines 54–56): any character in U+0900–U+097F. -/
def is_devanagari_script (text : String) : Bool :=
  text.data.any (fun c => decide (0x900 ≤ c.toNat) && decide (c.toNat ≤ 0x97F))

/-- Score of one language's indicator table on `text` (lines 63–66): the sum
of the weights of the keywords occurring in the text, each counted once. -/
def keywordScore (text : String) (indicators : List (String × Nat)) : Nat :=
  indicators.foldl
    (fun acc p => if occursIn p.1.data text.data then acc + p.2 else acc) 0

/-- Python `max(items, key=lambda x: x[1])` on a nonempty list: keeps the
first item whose score no later item strictly exceeds. -/
def bestByScore (s : String × Nat) (rest : List (String × Nat)) : String × Nat :=
  rest.foldl (fun best p => if best.2 < p.2 then p else best) s

/-- `detect_devanagari_language` (lines 58–76): score the five candidate
languages, keep those with positive score, return the first of maximal score;
default to Hindi with confidence 0 when no keyword matched. -/
def detect_devanagari_language (text : String) : String × Nat :=
  match (devanagari_indicators.map (fun p => (p.1, keywordScore text p.2))).filter
      (fun p => decide (0 < p.2)) with
  | [] => ("hi", 0)
  | s :: rest => bestByScore s rest

/-- `detect_language` (lines 78–103), instrumented: `generic` is the external
`langdetect.detect` call (`none` models `LangDetectException`); the second
component records which detectors were invoked, in order.  The result is
`none` exactly when the uncaught lookup `lang_code_map[devanagari_lang]`
would raise a `KeyError`. -/
def detect_language_ex (generic : String → Option String) (text : String) :
    Option String × List String :=
  if text = "" ∨ (pyStrip text).length < 2 then (some "hin_Deva", [])
  else if is_devanagari_script text then
    (lookupCode (detect_devanagari_language text).1, ["devanagari"])
  else
    match generic text with
    | some lang =>
      (match lookupCode lang with
       | some code => (some code, ["langdetect"])
       | none => (some "hin_Deva", ["langdetect"]))
    | none => (some "hin_Deva", ["langdetect"])

/-- The value `detect_language` returns (or `none` for an uncaught error). -/
def detect_language (generic : String → Option String) (text : String) :
    Option String :=
  (detect_language_ex generic text).1

/-! ## Embedding of src/final.py -/

/-- A post record from the input JSON array: `{title, url, selftext, score}`.
Each field is `Option`-valued because the source reads it with `post.get`. -/
structure Post where
  title : Option String
  url : Option String
  selftext : Option String
  score : Option Int
deriving DecidableEq, Repr

/-- The metadata dict built per post (final.py lines 75–80). -/
structure DocMetadata where
  source_url : String
  post_title : String
  subreddit : String
  score : Option Int
deriving DecidableEq, Repr

/-- A langchain `Document`, which is also the JSON shape of a chunk file:
`{page_content, metadata}`. -/
structure Doc where
  page_content : String
  metadata : DocMetadata
deriving DecidableEq, Repr

/-- `MAX_BATCH_CHARS = 8000 * 4` (final.py line 35). -/
def MAX_BATCH_CHARS : Nat := 8000 * 4

/-- `estimate_char_length` (lines 43–45): length of the chunk's
`page_content` (Python `len` on `str` counts code points). -/
def estimate_char_length (chunk_data : Doc) : Nat :=
  chunk_data.page_content.length

/-- The subreddit parsing of `process_and_chunk_reddit_data` (lines 65–73):
if `'/r/'` occurs in the url, take the text after its first occurrence and
cut it at the next `'/'`; otherwise keep the default `'N/A'`.  (The inner
`except IndexError` branch is dead: Python `split(sep, 1)` always yields two
parts when `sep` occurs, and `split('/')` always yields at least one part.) -/
def parse_subreddit (url : String) : String :=
  if occursIn ['/', 'r', '/'] url.data then
    match afterFirst ['/', 'r', '/'] url.data with
    | some seg => ⟨takeUntilSlash seg⟩
    | none => "N/A"
  else "N/A"

/-- The document content template (lines 60–64). -/
def post_content (p : Post) : String :=
  "Title: " ++ p.title.getD "N/A" ++ "\n" ++
  "URL: " ++ p.url.getD "N/A" ++ "\n" ++
  "Post Body:\n" ++ p.selftext.getD "N/A"

/-- The metadata built per post (lines 65–80); the parse uses
`post.get('url', '')` while `source_url` uses `post.get('url', 'N/A')`. -/
def post_metadata (p : Post) : DocMetadata :=
  { source_url := p.url.getD "N/A"
    post_title := p.title.getD "N/A"
    subreddit := parse_subreddit (p.url.getD "")
    score := p.score }

/-- `process_and_chunk_reddit_data` (lines 48–109).  The input file read is
`none` when the file is absent (the guarded early return 0), and otherwise
the outcome of `json.load`: `Except.error` models a parse exception, which
nothing in the source catches, so it propagates.  `splitter` is the external
`RecursiveCharacterTextSplitter.split_documents`.  Returns the chunk count
together with the chunk files written (in index order). -/
def process_and_chunk_reddit_data (splitter : List Doc → List Doc)
    (input : Option (Except String (List Post))) :
    Except String (Nat × List Doc) :=
  match input with
  | none => .ok (0, [])
  | some (.error e) => .error e
  | some (.ok posts) =>
    let documents := posts.map
      (fun p => { page_content := post_content p, metadata := post_metadata p })
    let chunked_documents := splitter documents
    .ok (chunked_documents.length, chunked_documents)

/-- The loop state of `create_batches`: the batch files already saved, the
current batch content, and `current_batch_size_chars`. -/
structure BatchState where
  saved : List (List Doc)
  cur : List Doc
  sz : Nat
deriving DecidableEq, Repr

/-- One iteration of the `create_batches` loop (lines 141–158): an unreadable
chunk file (`none`, the `except: continue`) is skipped; otherwise flush the
current batch when adding the chunk would exceed the budget and the current
batch is nonempty, else append the chunk. -/
def batchStep (maxB : Nat) (st : BatchState) (file : Option Doc) : BatchState :=
  match file with
  | none => st
  | some chunk_data =>
    let csz := estimate_char_length chunk_data
    if maxB < st.sz + csz ∧ st.cur ≠ [] then
      { saved := st.saved ++ [st.cur], cur := [chunk_data], sz := csz }
    else
      { saved := st.saved, cur := st.cur ++ [chunk_data], sz := st.sz + csz }

/-- `create_batches` (lines 112–163) as the list of batch files it writes, in
order.  `files` are the chunk-file read results in filename-sorted order;
`none` is a file whose read raised.  The trailing nonempty batch is flushed
(lines 160–161); the source's return value is the length of this list. -/
def create_batches (files : List (Option Doc)) (maxB : Nat) : List (List Doc) :=
  let st := files.foldl (batchStep maxB) ⟨[], [], 0⟩
  if st.cur = [] then st.saved else st.saved ++ [st.cur]

/-- One claim object after stamping (lines 276–278): the model-produced
fields are kept opaque in `body`; `batch_id` and `chunk_count` are added. -/
structure ClaimRecord where
  body : String
  batch_id : String
  chunk_count : Nat
deriving DecidableEq, Repr

/-- Batch file stem `batch_{i:02d}` for the batch ids (line 134 / 259). -/
def batch_name (i : Nat) : String :=
  if i < 10 then "batch_0" ++ toString i else "batch_" ++ toString i

/-- The prompt payload for one batch (lines 268–270): the chunks'
`page_content` joined with the chunk separator marker. -/
def joinBatchContent (batch : List Doc) : String :=
  String.intercalate "\n\n--- NEXT CHUNK ---\n\n"
    (batch.map (fun item => item.page_content))

/-- The per-batch loop of `analyze_batches` (lines 257–280), over the batch
files in order starting at index `i`.  `analyze` is `call_local_analysis`
(`none` models every failure path inside it, all of which are caught there);
a `some` result contributes its stamped claims unless the list is empty
(Python's truthiness test `if analysis_result_list and ...`). -/
def analyze_batches_go (analyze : String → Option (List String)) :
    Nat → List (List Doc) → List ClaimRecord
  | _, [] => []
  | i, batch_data :: rest =>
    (match analyze (joinBatchContent batch_data) with
     | some l =>
       if l = [] then []
       else l.map (fun s => ⟨s, batch_name i, batch_data.length⟩)
     | none => []) ++ analyze_batches_go analyze (i + 1) rest

/-- `analyze_batches` (lines 242–288): the flat claim list, paired with
whether the combined report file is written (line 284: only when the list is
nonempty).  Batch files are numbered from 1 by `create_batches`. -/
def analyze_batches (analyze : String → Option (List String))
    (batches : List (List Doc)) : List ClaimRecord × Bool :=
  let all_analysis_results := analyze_batches_go analyze 1 batches
  (all_analysis_results, !all_analysis_results.isEmpty)

/-- `run_full_analysis_pipeline` (lines 295–316): chunk, short-circuit on 0
chunks, batch, short-circuit on 0 batches, analyze.  The chunk files written
by stage 1 are read back by stage 2 (all readable, having just been
written). An `Except.error` is an exception propagating to the caller. -/
def run_full_analysis_pipeline (splitter : List Doc → List Doc)
    (analyze : String → Option (List String))
    (input : Option (Except String (List Post))) :
    Except String (List ClaimRecord) :=
  match process_and_chunk_reddit_data splitter input with
  | .error e => .error e
  | .ok (chunk_count, chunks) =>
    if chunk_count = 0 then .ok []
    else if (create_batches (chunks.map some) MAX_BATCH_CHARS).length = 0 then
      .ok []
    else
      .ok (analyze_batches analyze
        (create_batches (chunks.map some) MAX_BATCH_CHARS)).1

/-- Normal (non-raising) completion of a Python call modelled in `Except`. -/
def pyOk : Except String α → Bool
  | .ok _ => true
  | .error _ => false

/-! ## Batching lemmas -/

/-- Estimated total size of a batch, as summed by the loop counter. -/
def sumEst (b : List Doc) : Nat :=
  (b.map estimate_char_length).sum

/-- The invariant of a written batch: within budget, or a forced singleton
holding one over-budget chunk. -/
def batchOk (maxB : Nat) (b : List Doc) : Prop :=
  sumEst b ≤ maxB ∨ ∃ c, b = [c] ∧ maxB < estimate_char_length c

/-- The loop invariant of `create_batches`: the size counter tracks the
current batch, and every batch (saved or current) satisfies `batchOk`. -/
def stateOk (maxB : Nat) (st : BatchState) : Prop :=
  st.sz = sumEst st.cur ∧ batchOk maxB st.cur ∧ ∀ b ∈ st.saved, batchOk maxB b

theorem sumEst_append (b : List Doc) (c : Doc) :
    sumEst (b ++ [c]) = sumEst b + estimate_char_length c := by
  simp [sumEst]

theorem batchOk_single (maxB : Nat) (c : Doc) : batchOk maxB [c] := by
  rcases le_or_lt (estimate_char_length c) maxB with h | h
  · exact Or.inl (by simpa [sumEst] using h)
  · exact Or.inr ⟨c, rfl, h⟩

theorem batchStep_stateOk (maxB : Nat) (st : BatchState) (file : Option Doc)
    (h : stateOk maxB st) : stateOk maxB (batchStep maxB st file) := by
  obtain ⟨hsz, hcur, hsaved⟩ := h
  match file with
  | none => exact ⟨hsz, hcur, hsaved⟩
  | some c =>
    simp only [batchStep]
    split
    · refine ⟨by simp [sumEst], batchOk_single maxB c, ?_⟩
      intro b hb
      rcases List.mem_append.mp hb with hb | hb
      · exact hsaved b hb
      · rcases List.mem_singleton.mp hb with rfl
        exact hcur
    · next hcond =>
      refine ⟨by rw [sumEst_append, hsz], ?_, hsaved⟩
      rcases Decidable.not_and_iff_or_not.mp hcond with hle | hnil
      · refine Or.inl ?_
        rw [sumEst_append, ← hsz]
        exact Nat.le_of_not_lt hle
      · have hnilE : st.cur = [] := Decidable.of_not_not hnil
        rw [hnilE]
        simpa using batchOk_single maxB c

theorem foldl_batchStep_stateOk (maxB : Nat) (files : List (Option Doc)) :
    ∀ st : BatchState, stateOk maxB st →
      stateOk maxB (files.foldl (batchStep maxB) st) := by
  induction files with
  | nil => intro st h; exact h
  | cons f rest ih =>
    intro st h
    exact ih _ (batchStep_stateOk maxB st f h)

/-- Every batch written by `create_batches` satisfies the batch invariant. -/
theorem create_batches_batchOk (files : List (Option Doc)) (maxB : Nat) :
    ∀ b ∈ create_batches files maxB, batchOk maxB b := by
  have h0 : stateOk maxB ⟨[], [], 0⟩ :=
    ⟨by simp [sumEst], Or.inl (by simp [sumEst]), by simp⟩
  have h := foldl_batchStep_stateOk maxB files _ h0
  obtain ⟨hsz, hcur, hsaved⟩ := h
  intro b hb
  simp only [create_batches] at hb
  split at hb
  · exact hsaved b hb
  · rcases List.mem_append.mp hb with hb | hb
    · exact hsaved b hb
    · rcases List.mem_singleton.mp hb with rfl
      exact hcur

theorem batchStep_join (maxB : Nat) (st : BatchState) (file : Option Doc) :
    (batchStep maxB st file).saved.flatten ++ (batchStep maxB st file).cur =
      st.saved.flatten ++ st.cur ++ file.toList := by
  match file with
  | none => simp [batchStep]
  | some c =>
    simp only [batchStep]
    split <;> simp

theorem foldl_batchStep_join (maxB : Nat) (files : List (Option Doc)) :
    ∀ st : BatchState,
      (files.foldl (batchStep maxB) st).saved.flatten ++
          (files.foldl (batchStep maxB) st).cur =
        st.saved.flatten ++ st.cur ++ files.filterMap id := by
  induction files with
  | nil => intro st; simp
  | cons f rest ih =>
    intro st
    rw [List.foldl_cons, ih (batchStep maxB st f), batchStep_join]
    cases f <;> simp

/-- A minimal metadata value for concrete inputs. -/
def sampleMeta : DocMetadata :=
  ⟨"https://example.org", "t", "N/A", none⟩

/-- A concrete chunk document with the given content. -/
def sampleDoc (s : String) : Doc :=
  ⟨s, sampleMeta⟩

/-! ## Claim theorems: batching -/

/-- C2: `create_batches` partitions the readable chunks across the batch
files it writes: concatenating the written batches in order yields exactly
the list of successfully read chunks, so every readable chunk lands in
exactly one batch, none is dropped, none is duplicated, and chunk files
whose read raised are excluded. -/
theorem c2_create_batches_partitions (files : List (Option Doc)) (maxB : Nat) :
    (create_batches files maxB).flatten = files.filterMap id := by
  have h := foldl_batchStep_join maxB files ⟨[], [], 0⟩
  simp only [List.flatten_nil, List.nil_append] at h
  simp only [create_batches]
  split
  · next hnil =>
    rw [hnil] at h
    simpa using h
  · simpa using h

/-- C3: every batch written by `create_batches` has estimated total size at
most the budget, except a singleton batch holding one chunk whose own
estimated length exceeds the budget. -/
theorem c3_batch_within_budget (files : List (Option Doc)) (maxB : Nat)
    (b : List Doc) (hb : b ∈ create_batches files maxB) :
    sumEst b ≤ maxB ∨ ∃ c, b = [c] ∧ maxB < estimate_char_length c :=
  create_batches_batchOk files maxB b hb

theorem c3_batch_within_budget_witness :
    [sampleDoc "abc"] ∈ create_batches [some (sampleDoc "abc")] MAX_BATCH_CHARS ∧
      (sumEst [sampleDoc "abc"] ≤ MAX_BATCH_CHARS ∨
        ∃ c, [sampleDoc "abc"] = [c] ∧ MAX_BATCH_CHARS < estimate_char_length c) :=
  ⟨by decide,
   c3_batch_within_budget [some (sampleDoc "abc")] MAX_BATCH_CHARS
     [sampleDoc "abc"] (by decide)⟩

/-- C4: a chunk whose own estimated length exceeds the budget is placed alone:
any batch containing an over-budget chunk is exactly the singleton of that
chunk (and the chunk itself is kept whole, never split). -/
theorem c4_oversized_chunk_alone (files : List (Option Doc)) (maxB : Nat)
    (b : List Doc) (c : Doc) (hb : b ∈ create_batches files maxB) (hc : c ∈ b)
    (hover : maxB < estimate_char_length c) : b = [c] := by
  rcases create_batches_batchOk files maxB b hb with hle | ⟨c', rfl, _⟩
  · exfalso
    have hmem : estimate_char_length c ∈ b.map estimate_char_length :=
      List.mem_map_of_mem _ hc
    have : estimate_char_length c ≤ sumEst b :=
      List.single_le_sum (fun x _ => Nat.zero_le x) _ hmem
    omega
  · rcases List.mem_singleton.mp hc with rfl
    rfl

theorem c4_oversized_chunk_alone_witness :
    [sampleDoc "abc"] ∈ create_batches [some (sampleDoc "abc")] 2 ∧
      sampleDoc "abc" ∈ [sampleDoc "abc"] ∧
      2 < estimate_char_length (sampleDoc "abc") ∧
      [sampleDoc "abc"] = [sampleDoc "abc"] :=
  ⟨by decide, by decide, by decide,
   c4_oversized_chunk_alone [some (sampleDoc "abc")] 2 [sampleDoc "abc"]
     (sampleDoc "abc") (by decide) (by decide) (by decide)⟩

/-! ## Language-detector lemmas -/

theorem dropWhile_length_le {α : Type} (p : α → Bool) (l : List α) :
    (l.dropWhile p).length ≤ l.length := by
  induction l with
  | nil => simp
  | cons c cs ih =>
    rw [List.dropWhile_cons]
    split
    · exact Nat.le_succ_of_le ih
    · simp

theorem pyStrip_length_le (s : String) : (pyStrip s).length ≤ s.length := by
  show ((s.data.dropWhile Char.isWhitespace).reverse.dropWhile
      Char.isWhitespace).reverse.length ≤ s.data.length
  rw [List.length_reverse]
  calc ((s.data.dropWhile Char.isWhitespace).reverse.dropWhile
          Char.isWhitespace).length
      ≤ (s.data.dropWhile Char.isWhitespace).reverse.length :=
        dropWhile_length_le _ _
    _ = (s.data.dropWhile Char.isWhitespace).length := List.length_reverse _
    _ ≤ s.data.length := dropWhile_length_le _ _

theorem bestByScore_mem (s : String × Nat) (rest : List (String × Nat)) :
    bestByScore s rest ∈ s :: rest := by
  induction rest generalizing s with
  | nil => simp [bestByScore]
  | cons p rest ih =>
    have h := ih (if s.2 < p.2 then p else s)
    simp only [bestByScore, List.foldl_cons] at h ⊢
    rcases List.mem_cons.mp h with heq | hmem
    · rw [heq]
      by_cases hlt : s.2 < p.2
      · rw [if_pos hlt]
        exact List.mem_cons_of_mem _ (List.mem_cons_self _ _)
      · rw [if_neg hlt]
        exact List.mem_cons_self _ _
    · exact List.mem_cons_of_mem _ (List.mem_cons_of_mem _ hmem)

/-- The Devanagari disambiguator only ever answers one of the five candidate
language codes, independently of the text. -/
theorem detect_devanagari_fst_mem (text : String) :
    (detect_devanagari_language text).1 ∈ ["hi", "mr", "gu", "sa", "ne"] := by
  have hkeys : ∀ r ∈ (devanagari_indicators.map
      (fun p => (p.1, keywordScore text p.2))).filter (fun p => decide (0 < p.2)),
      r.1 ∈ ["hi", "mr", "gu", "sa", "ne"] := by
    intro r hr
    rcases List.mem_map.mp (List.mem_of_mem_filter hr) with ⟨p, hp, rfl⟩
    have hmem : p.1 ∈ devanagari_indicators.map Prod.fst :=
      List.mem_map_of_mem _ hp
    simpa [devanagari_indicators] using hmem
  unfold detect_devanagari_language
  split
  · simp
  · next s rest hE => exact hkeys _ (hE ▸ bestByScore_mem s rest)

theorem lookupCode_five_isSome :
    ∀ x ∈ ["hi", "mr", "gu", "sa", "ne"], (lookupCode x).isSome = true := by
  decide

/-- `detect_language` completes normally on every input: every branch yields
a result, and the Devanagari branch's dictionary lookup always succeeds. -/
theorem detect_language_isSome (generic : String → Option String)
    (text : String) : (detect_language generic text).isSome = true := by
  unfold detect_language detect_language_ex
  split
  · rfl
  · split
    · exact lookupCode_five_isSome _ (detect_devanagari_fst_mem text)
    · split
      · split <;> rfl
      · rfl

theorem keywordScore_go_congr (t₁ t₂ : String) :
    ∀ (ind : List (String × Nat)) (acc : Nat),
      (∀ q ∈ ind, occursIn q.1.data t₁.data = occursIn q.1.data t₂.data) →
      ind.foldl (fun a p => if occursIn p.1.data t₁.data then a + p.2 else a) acc =
        ind.foldl (fun a p => if occursIn p.1.data t₂.data then a + p.2 else a) acc := by
  intro ind
  induction ind with
  | nil => intro acc _; rfl
  | cons q rest ih =>
    intro acc h
    simp only [List.foldl_cons]
    rw [h q (List.mem_cons_self q rest)]
    exact ih _ (fun q' hq' => h q' (List.mem_cons_of_mem q hq'))

/-! ## Claim theorems: language detector -/

/-- C1 counterexample: on the text that is the keyword है written twice, the
Devanagari disambiguator assigns Hindi a score of 3, not 6 — the scorer adds
a keyword's weight once if the keyword occurs, regardless of how many times
it occurs — refuting the claimed score of 6. -/
theorem c1_counterexample :
    (detect_devanagari_language "हैहै").2 = 3 ∧
      (detect_devanagari_language "हैहै").2 ≠ 6 := by
  decide

/-- C1 (amended): on the text that is the keyword है written twice, the
Devanagari disambiguator scores Hindi 3 (each matching keyword counts once,
however often it occurs), every other candidate language scores 0, Hindi is
returned, and `detect_language` maps it to hin_Deva for any generic-detector
oracle. -/
theorem c1_hindi_keyword_text (generic : String → Option String) :
    detect_devanagari_language "हैहै" = ("hi", 3) ∧
      (devanagari_indicators.all
        (fun p => p.1 == "hi" || keywordScore "हैहै" p.2 == 0)) = true ∧
      detect_language generic "हैहै" = some "hin_Deva" := by
  refine ⟨by decide, by decide, ?_⟩
  have h1 : ¬(("हैहै" : String) = "" ∨ (pyStrip "हैहै").length < 2) := by decide
  have h2 : is_devanagari_script "हैहै" = true := by decide
  unfold detect_language detect_language_ex
  rw [if_neg h1, if_pos h2]
  decide

/-- C8: a text that is empty or shorter than 2 characters makes
`detect_language` return the fixed default hin_Deva with neither the
Devanagari keyword scorer nor the generic statistical detector invoked (the
invocation trace is empty). -/
theorem c8_short_text_default (generic : String → Option String)
    (text : String) (h : text.length < 2) :
    detect_language_ex generic text = (some "hin_Deva", []) := by
  have hs : (pyStrip text).length < 2 :=
    lt_of_le_of_lt (pyStrip_length_le text) h
  unfold detect_language_ex
  rw [if_pos (Or.inr hs)]

theorem c8_short_text_default_witness :
    ("ह" : String).length < 2 ∧
      detect_language_ex (fun _ => none) "ह" = (some "hin_Deva", []) :=
  ⟨by decide, c8_short_text_default (fun _ => none) "ह" (by decide)⟩

/-- C9: on any text containing a Devanagari-block character,
`detect_devanagari_language` answers one of the five candidate codes, each a
key of `lang_code_map`, so the lookup inside `detect_language` never raises
and `detect_language` always produces a result. -/
theorem c9_devanagari_always_mapped (generic : String → Option String)
    (text : String) (_h : is_devanagari_script text = true) :
    (detect_devanagari_language text).1 ∈ ["hi", "mr", "gu", "sa", "ne"] ∧
      (lookupCode (detect_devanagari_language text).1).isSome = true ∧
      (detect_language generic text).isSome = true :=
  ⟨detect_devanagari_fst_mem text,
   lookupCode_five_isSome _ (detect_devanagari_fst_mem text),
   detect_language_isSome generic text⟩

theorem c9_devanagari_always_mapped_witness :
    is_devanagari_script "है" = true ∧
      ((detect_devanagari_language "है").1 ∈ ["hi", "mr", "gu", "sa", "ne"] ∧
        (lookupCode (detect_devanagari_language "है").1).isSome = true ∧
        (detect_language (fun _ => none) "है").isSome = true) :=
  ⟨by decide, c9_devanagari_always_mapped (fun _ => none) "है" (by decide)⟩

/-- C10: the keyword scoring depends only on which table keywords occur as
substrings of the text, not on how many times each occurs: two texts with
the same set of matching keywords for every language receive the same scores
and the same detection result. -/
theorem c10_score_depends_on_matches (t₁ t₂ : String)
    (h : ∀ p ∈ devanagari_indicators, ∀ q ∈ p.2,
      occursIn q.1.data t₁.data = occursIn q.1.data t₂.data) :
    detect_devanagari_language t₁ = detect_devanagari_language t₂ := by
  have hmap : devanagari_indicators.map (fun p => (p.1, keywordScore t₁ p.2)) =
      devanagari_indicators.map (fun p => (p.1, keywordScore t₂ p.2)) := by
    apply List.map_congr_left
    intro p hp
    have hs := keywordScore_go_congr t₁ t₂ p.2 0 (h p hp)
    simp only [keywordScore, hs]
  unfold detect_devanagari_language
  rw [hmap]

theorem c10_score_depends_on_matches_witness :
    detect_devanagari_language "है" = detect_devanagari_language "हैहै" :=
  c10_score_depends_on_matches "है" "हैहै" (by decide)

/-! ## Subreddit-parsing lemmas -/

theorem isPrefixB_append_of_le :
    ∀ (w t u : List Char), w.length ≤ t.length →
      isPrefixB w (t ++ u) = isPrefixB w t
  | [], _, _, _ => rfl
  | a :: as, [], u, h => by simp at h
  | a :: as, b :: bs, u, h => by
    show (a == b && isPrefixB as (bs ++ u)) = (a == b && isPrefixB as bs)
    rw [isPrefixB_append_of_le as bs u (by simpa using h)]

theorem occursIn_sep_append (pre tail : List Char) :
    occursIn ['/', 'r', '/'] (pre ++ '/' :: 'r' :: '/' :: tail) = true := by
  induction pre with
  | nil =>
    have hp : isPrefixB ['/', 'r', '/'] ('/' :: 'r' :: '/' :: tail) = true := by
      simp [isPrefixB]
    simp only [List.nil_append, occursIn, hp, Bool.true_or]
  | cons p pre ih =>
    rw [List.cons_append]
    simp only [occursIn, ih, Bool.or_true]

theorem afterFirst_append :
    ∀ (pre tail : List Char),
      occursIn ['/', 'r', '/'] (pre ++ ['/', 'r']) = false →
      afterFirst ['/', 'r', '/'] (pre ++ '/' :: 'r' :: '/' :: tail) = some tail
  | [], tail, _ => by
    have hp : isPrefixB ['/', 'r', '/'] ('/' :: 'r' :: '/' :: tail) = true := by
      simp [isPrefixB]
    simp only [List.nil_append, afterFirst, hp, if_true]
    rfl
  | p :: pre, tail, h => by
    rw [List.cons_append] at h
    simp only [occursIn, Bool.or_eq_false_iff] at h
    obtain ⟨h1, h2⟩ := h
    rw [List.cons_append]
    have hcond : isPrefixB ['/', 'r', '/']
        (p :: (pre ++ '/' :: 'r' :: '/' :: tail)) = false := by
      have he : p :: (pre ++ '/' :: 'r' :: '/' :: tail) =
          (p :: (pre ++ ['/', 'r'])) ++ ('/' :: tail) := by simp
      rw [he, isPrefixB_append_of_le _ _ _ (by simp)]
      exact h1
    simp only [afterFirst, hcond]
    rw [if_neg (by simp)]
    exact afterFirst_append pre tail h2

/-! ## Claim theorems: metadata parsing, error handling, analysis -/

/-- C6 counterexample: for a post whose url ends at '/r/' with nothing after
it, `process_and_chunk_reddit_data` sets `metadata.subreddit` to the empty
string, not to the claimed default 'N/A'. -/
theorem c6_counterexample :
    (post_metadata
        ⟨some "t", some "https://www.reddit.com/r/", some "b", none⟩).subreddit
      = "" ∧
    (post_metadata
        ⟨some "t", some "https://www.reddit.com/r/", some "b", none⟩).subreddit
      ≠ "N/A" := by
  decide

/-- C6 (amended): `process_and_chunk_reddit_data` sets `metadata.subreddit`
to the (possibly empty) path segment immediately following the first
occurrence of '/r/' in the post's url — the characters after it up to the
next '/' — and to 'N/A' exactly when '/r/' does not occur in the url. -/
theorem c6_subreddit_segment (p : Post) :
    (post_metadata p).subreddit = parse_subreddit (p.url.getD "") ∧
    (occursIn ['/', 'r', '/'] (p.url.getD "").data = false →
      (post_metadata p).subreddit = "N/A") ∧
    (∀ pre tail : List Char,
      (p.url.getD "").data = pre ++ '/' :: 'r' :: '/' :: tail →
      occursIn ['/', 'r', '/'] (pre ++ ['/', 'r']) = false →
      (post_metadata p).subreddit = ⟨takeUntilSlash tail⟩) := by
  refine ⟨rfl, ?_, ?_⟩
  · intro h
    show parse_subreddit (p.url.getD "") = "N/A"
    unfold parse_subreddit
    rw [if_neg (by simp [h])]
  · intro pre tail hurl hfirst
    show parse_subreddit (p.url.getD "") = ⟨takeUntilSlash tail⟩
    unfold parse_subreddit
    rw [hurl, if_pos (occursIn_sep_append pre tail),
      afterFirst_append pre tail hfirst]

theorem c6_subreddit_segment_witness :
    (post_metadata ⟨none, none, none, none⟩).subreddit = "N/A" ∧
      (post_metadata ⟨none, some "https://a/r/pune/x", none, none⟩).subreddit
        = "pune" := by
  constructor
  · exact (c6_subreddit_segment ⟨none, none, none, none⟩).2.1 (by decide)
  · have h := (c6_subreddit_segment
        ⟨none, some "https://a/r/pune/x", none, none⟩).2.2
      "https://a".data "pune/x".data (by decide) (by decide)
    exact h.trans (by decide)

/-- C5 counterexample: a present but malformed input JSON file makes the
pipeline raise to its caller: `json.load` at the top of
`process_and_chunk_reddit_data` is wrapped in no try/except, so the parse
exception propagates out of `run_full_analysis_pipeline`, refuting the claim
that every failure is caught locally. -/
theorem c5_counterexample :
    run_full_analysis_pipeline id (fun _ => none)
        (some (.error "Expecting value: line 1 column 1 (char 0)")) =
      .error "Expecting value: line 1 column 1 (char 0)" := rfl

/-- C5 (amended): the pipeline completes without raising whenever the input
file is absent (reported, empty result) or parses: failures in the model
analysis calls and downstream stages are caught locally, for every splitter
and analysis oracle.  Only a present-but-malformed input JSON file raises to
the caller. -/
theorem c5_no_exception_on_parsable_input (splitter : List Doc → List Doc)
    (analyze : String → Option (List String))
    (input : Option (Except String (List Post)))
    (h : ∀ e, input ≠ some (.error e)) :
    pyOk (run_full_analysis_pipeline splitter analyze input) = true := by
  match input with
  | none => rfl
  | some (.error e) => exact absurd rfl (h e)
  | some (.ok posts) =>
    unfold run_full_analysis_pipeline
    split
    · next e heq => simp [process_and_chunk_reddit_data] at heq
    · split
      · rfl
      · split <;> rfl

theorem c5_no_exception_on_parsable_input_witness :
    pyOk (run_full_analysis_pipeline id (fun _ => none) none) = true :=
  c5_no_exception_on_parsable_input id (fun _ => none) none
    (fun _ h => Option.noConfusion h)

/-- C7: when every model analysis call fails (`call_local_analysis` returns
no result for every batch), `analyze_batches` returns the empty claim list,
the combined report file is not written, and the full pipeline on any
parsable input reports zero claims. -/
theorem c7_all_analysis_failures (analyze : String → Option (List String))
    (h : ∀ s, analyze s = none) :
    (∀ batches, analyze_batches analyze batches = ([], false)) ∧
      (∀ (splitter : List Doc → List Doc) (posts : List Post),
        run_full_analysis_pipeline splitter analyze (some (.ok posts)) =
          .ok []) := by
  have hgo : ∀ (i : Nat) (batches : List (List Doc)),
      analyze_batches_go analyze i batches = [] := by
    intro i batches
    induction batches generalizing i with
    | nil => rfl
    | cons b rest ih =>
      simp only [analyze_batches_go, h, List.nil_append]
      exact ih _
  constructor
  · intro batches
    simp [analyze_batches, hgo]
  · intro splitter posts
    unfold run_full_analysis_pipeline
    split
    · next e heq => simp [process_and_chunk_reddit_data] at heq
    · split
      · rfl
      · split
        · rfl
        · simp [analyze_batches, hgo]

theorem c7_all_analysis_failures_witness :
    analyze_batches (fun _ => none) [[sampleDoc "x"]] = ([], false) ∧
      run_full_analysis_pipeline id (fun _ => none)
          (some (.ok [⟨some "t", some "u", some "b", none⟩])) = .ok [] :=
  ⟨(c7_all_analysis_failures (fun _ => none) (fun _ => rfl)).1 [[sampleDoc "x"]],
   (c7_all_analysis_failures (fun _ => none) (fun _ => rfl)).2 id
     [⟨some "t", some "u", some "b", none⟩]⟩

end BharatFact
